import Mathlib

/-!
Verification of the plainbox file-unit validation core
(`plainbox/impl/unit/file.py`): the `FileRole` symbolic enumeration, the
two field validators registered by `FileUnit.Meta`, the custom
`FileUnitValidator.explain`, and the `FileUnit` string/representation
conversions.  Collaborator machinery that is not part of the sources
(the `SymbolDef` enumeration support, the generic
`CorrectFieldValueValidator` evaluation, and the `Problem`/`Severity`
vocabularies) is modelled from the specification and marked as such in
the doc comments below.
-/

namespace Plainbox

/-- Modelled from the spec: a symbol of the `SymbolDef` enumeration
machinery (`plainbox.impl.symbol`, an external collaborator whose source is
not included) is an immutable named constant; equality, ordering and
hashing are by the identifier string, and its display form is the
identifier itself. -/
structure Symbol where
  name : String
deriving DecidableEq

/-- Modelled from the spec: a raw field value compares equal to a symbol
exactly when it is a string equal to the symbol's identifier; an absent
(unset) raw value never equals a symbol. -/
def eqSymbol (v : Option String) (sym : Symbol) : Bool :=
  match v with
  | none => false
  | some s => s == sym.name

namespace FileRole

/-- `unit_source = 'unit-source'` in the `FileRole` symbol definition. -/
def unit_source : Symbol := ⟨"unit-source"⟩

/-- `legacy_whitelist = 'legacy-whitelist'`. -/
def legacy_whitelist : Symbol := ⟨"legacy-whitelist"⟩

/-- `script = 'script'` (architecture independent executable). -/
def script : Symbol := ⟨"script"⟩

/-- `binary = 'binary'` (architecture dependent executable). -/
def binary : Symbol := ⟨"binary"⟩

/-- `data = 'data'` (data file). -/
def data : Symbol := ⟨"data"⟩

/-- `i18n = 'i18n'` (translation catalog). -/
def i18n : Symbol := ⟨"i18n"⟩

/-- `manage_py = 'manage.py'` (management script). -/
def manage_py : Symbol := ⟨"manage.py"⟩

/-- `legal = 'legal'` (license and copyright). -/
def legal : Symbol := ⟨"legal"⟩

/-- `docs = 'docs'` (documentation). -/
def docs : Symbol := ⟨"docs"⟩

/-- `unknown = 'unknown'` (unknown / unclassified). -/
def unknown : Symbol := ⟨"unknown"⟩

/-- `build = 'build'` (build artefact). -/
def build : Symbol := ⟨"build"⟩

/-- `invalid = 'invalid'` (invalid file that will never be used). -/
def invalid : Symbol := ⟨"invalid"⟩

/-- `vcs = 'vcs'` (version control system data). -/
def vcs : Symbol := ⟨"vcs"⟩

/-- `src = 'src'` (source). -/
def src : Symbol := ⟨"src"⟩

/-- Modelled from the spec: `FileRole.get_all_symbols()` enumerates the
full symbol set of the enumeration; the identifiers are the string values
assigned in the `FileRole` class body of `file.py`, in declaration
order. -/
def get_all_symbols : List Symbol :=
  [unit_source, legacy_whitelist, script, binary, data, i18n, manage_py,
   legal, docs, unknown, build, invalid, vcs, src]

end FileRole

/-- The predicate of the role-membership validator,
`lambda value: value in FileRole.get_all_symbols()`: Python `in` tests the
value for equality against each symbol, and a symbol equals a raw string
with the same identifier. -/
def memberRole (value : String) : Bool :=
  FileRole.get_all_symbols.any (fun sym => value == sym.name)

/-- Index of the last occurrence of `c` in `l` (Python `str.rfind`,
returning `none` instead of -1 when absent). -/
def rfindIdx (c : Char) : List Char → Option Nat
  | [] => none
  | a :: as =>
    match rfindIdx c as with
    | some i => some (i + 1)
    | none => if a == c then some 0 else none

/-- CPython `posixpath.splitext`: split the final extension off a path.
The extension starts at the last dot that lies after the last `/` and is
preceded, within the basename, by at least one non-dot character (so
leading dots of a hidden file do not start an extension). -/
def splitext (p : String) : String × String :=
  let l := p.data
  let sepIndex := rfindIdx '/' l
  let dotIndex := rfindIdx '.' l
  match dotIndex with
  | none => (p, "")
  | some d =>
    let fnIdx : Nat :=
      match sepIndex with
      | none => 0
      | some i => i + 1
    if (match sepIndex with
        | none => true
        | some i => i < d) then
      if (List.range' fnIdx (d - fnIdx)).any (fun k => !(l.getD k '.' == '.')) then
        (⟨l.take d⟩, ⟨l.drop d⟩)
      else (p, "")
    else (p, "")

/-- The extension component `os.path.splitext(value)[1]`. -/
def splitextExt (p : String) : String := (splitext p).2

/-- The resolved raw field values of one `FileUnit` that this core reads:
`path` and `role`.  `none` models an absent (unset or empty) raw value,
per the spec's treatment of absence; a present value is the raw string. -/
structure FileUnitData where
  path : Option String
  role : Option String

/-- Modelled from the spec: the problem-classification vocabulary
(`plainbox.impl.validation.Problem`, an external collaborator); the code
here uses `deprecated`, and the role validator leaves the library
default. -/
inductive Problem where
  | missing
  | wrong
  | useless
  | deprecated
deriving DecidableEq

/-- Modelled from the spec: the severity vocabulary
(`plainbox.impl.validation.Severity`, an external collaborator). -/
inductive Severity where
  | error
  | warning
  | advice
deriving DecidableEq

/-- A field validator as constructed by `CorrectFieldValueValidator(...)`
in `FileUnit.Meta.field_validators`: the predicate, the problem and
severity classifications (`none` models "argument not passed, library
default applies" — the defaults live in the external `validators`
module), the message, and the optional `onlyif` applicability guard. -/
structure CorrectFieldValueValidator where
  correct_fn : String → Bool
  problem : Option Problem
  severity : Option Severity
  message : Option String
  onlyif : Option (FileUnitData → Bool)

/-- The FAQ URL substituted into the extension-convention message. -/
def faqUrl : String :=
  "http://plainbox.readthedocs.org/en/latest/author/faq.html#faq-1"

/-- The fixed message of the extension-convention validator: the two
adjacent string literals of the source concatenate, and the trailing
format placeholder receives `faqUrl`. -/
def pxuAdviceMessage : String :=
  "please use .pxu as an extension for all" ++
    " files with plainbox units, see: " ++ faqUrl

/-- The validator registered on `fields.path`: predicate
`lambda value: os.path.splitext(value)[1] == '.pxu'`, problem
`deprecated`, severity `advice`, guard
`lambda unit: unit.role == FileRole.unit_source`. -/
def pathExtensionValidator : CorrectFieldValueValidator :=
  ⟨fun value => splitextExt value == ".pxu",
   some Problem.deprecated,
   some Severity.advice,
   some pxuAdviceMessage,
   some (fun unit => eqSymbol unit.role FileRole.unit_source)⟩

/-- Code-point comparison of strings (Python string ordering). -/
def charListLe : List Char → List Char → Bool
  | [], _ => true
  | _ :: _, [] => false
  | a :: as, b :: bs =>
    if a.toNat < b.toNat then true
    else if b.toNat < a.toNat then false
    else charListLe as bs

/-- Insert a symbol into a list sorted by identifier. -/
def insertSymbol (s : Symbol) : List Symbol → List Symbol
  | [] => [s]
  | t :: ts =>
    if charListLe s.name.data t.name.data then s :: t :: ts
    else t :: insertSymbol s ts

/-- Python `sorted` over symbols: sort ascending by identifier string. -/
def sortSymbols : List Symbol → List Symbol
  | [] => []
  | s :: ss => insertSymbol s (sortSymbols ss)

/-- The message of the role-membership validator:
`'valid values are: ' + ', '.join(str(sym) for sym in sorted(FileRole.get_all_symbols()))`. -/
def roleMessage : String :=
  "valid values are: " ++
    String.intercalate ", "
      ((sortSymbols FileRole.get_all_symbols).map Symbol.name)

/-- The validator registered on `fields.role`: the membership predicate
and a message; problem and severity are not passed (library defaults). -/
def roleMembershipValidator : CorrectFieldValueValidator :=
  ⟨fun value => memberRole value,
   none,
   none,
   some roleMessage,
   none⟩

/-- Modelled from the spec: evaluation of one field validator (the generic
`CorrectFieldValueValidator` machinery is an external collaborator).  The
validator is inert when its `onlyif` guard is present and evaluates false;
otherwise it produces a violation exactly when a raw value is present and
the predicate rejects it — an absent value is never a violation by
itself. -/
def checkValidator (v : CorrectFieldValueValidator) (u : FileUnitData)
    (value : Option String) : Bool :=
  (match v.onlyif with
   | none => true
   | some g => g u) &&
  (match value with
   | none => false
   | some s => !(v.correct_fn s))

/-- Whether the extension-convention validator fires on a unit. -/
def pathViolation (u : FileUnitData) : Bool :=
  checkValidator pathExtensionValidator u u.path

/-- Whether the role-membership validator fires on a unit. -/
def roleViolation (u : FileUnitData) : Bool :=
  checkValidator roleMembershipValidator u u.role

/-- The state of a `FileUnitValidator` that `explain` reads: the stock
message map `_explain_map` (problem kind to stock message), owned by the
generic `UnitValidator` base (external collaborator). -/
structure FileUnitValidator where
  explain_map : List (Problem × String)

/-- `self._explain_map.get(kind)`: the stock message for a problem kind,
if the map has one. -/
def FileUnitValidator.stockMsg (v : FileUnitValidator) (kind : Problem) :
    Option String :=
  (v.explain_map.find? (fun kv => kv.1 == kind)).map Prod.snd

/-- Python truthiness of an optional string: `None` and the empty string
are falsy. -/
def truthy : Option String → Bool
  | none => false
  | some s => s != ""

/-- `FileUnitValidator.explain(self, unit, field, kind, message)`:
`stock_msg = self._explain_map.get(kind); if message or stock_msg: return
message or stock_msg` — and an implicit `None` otherwise.  The `unit` and
`field` arguments are accepted and ignored, as in the source. -/
def FileUnitValidator.explain (v : FileUnitValidator) (unit : FileUnitData)
    (field : String) (kind : Problem) (message : Option String) :
    Option String :=
  let stock_msg := v.stockMsg kind
  if truthy message || truthy stock_msg then
    if truthy message then message else stock_msg
  else none

/-- `FileUnit.__str__`: `return self.path` (the raw `path` field value). -/
def fileUnitStr (u : FileUnitData) : Option String := u.path

/-- Quote character chosen by CPython `repr` for a string: a single quote,
unless the string contains a single quote and no double quote. -/
def pyQuote (l : List Char) : Char :=
  if l.contains '\'' && !(l.contains '"') then '"' else '\''

/-- Lower-case hexadecimal digit. -/
def hexDigitChar (n : Nat) : Char :=
  if n < 10 then Char.ofNat (48 + n) else Char.ofNat (87 + n)

/-- CPython `repr` escaping of one character inside quotes `q`: backslash
and the quote are backslash-escaped, tab, newline and carriage return
become two-character escapes, other control characters (and DEL) become
hexadecimal escapes, and every other character is kept (non-ASCII
printable characters are kept; this model treats all characters above DEL
as printable). -/
def escChar (q c : Char) : List Char :=
  if c == '\\' || c == q then ['\\', c]
  else if c == '\t' then ['\\', 't']
  else if c == '\n' then ['\\', 'n']
  else if c == '\r' then ['\\', 'r']
  else if c.toNat < 32 || c.toNat == 127 then
    ['\\', 'x', hexDigitChar (c.toNat / 16), hexDigitChar (c.toNat % 16)]
  else [c]

/-- CPython `repr` of a string, as used by the `!r` conversion in
`FileUnit.__repr__`. -/
def pyReprStr (s : String) : String :=
  let q := pyQuote s.data
  ⟨q :: ((s.data.map (escChar q)).flatten ++ [q])⟩

/-- `repr` of an optional raw field value: `None` prints as `None`. -/
def pyReprOpt : Option String → String
  | none => "None"
  | some s => pyReprStr s

/-- `FileUnit.__repr__`:
`"<FileUnit path:{!r}, role:{!r}>".format(self.path, self.role)`, written
here as explicit concatenation around the two `repr` conversions. -/
def fileUnitRepr (u : FileUnitData) : String :=
  "<FileUnit path:" ++ pyReprOpt u.path ++ ", role:" ++ pyReprOpt u.role ++ ">"

namespace FileUnitMeta

/-- The `fields` symbol definition of `FileUnit.Meta`: the declared field
names, by identifier. -/
def fields : List String := ["path", "role", "base"]

/-- The `field_validators` mapping of `FileUnit.Meta`: one validator list
for `path` and one for `role`. -/
def field_validators : List (String × List CorrectFieldValueValidator) :=
  [("path", [pathExtensionValidator]), ("role", [roleMembershipValidator])]

end FileUnitMeta

/-- Whether every character of a string survives CPython `repr` unescaped
under either quote choice: printable ASCII that is not a backslash and
not a quote. -/
def plainChar (c : Char) : Bool :=
  32 ≤ c.toNat && c.toNat < 127 &&
    !(c == '\\') && !(c == '\'') && !(c == '"')

/-- Whether `needle` is an initial segment of `hay`. -/
def startsWithChars : List Char → List Char → Bool
  | [], _ => true
  | _ :: _, [] => false
  | a :: as, b :: bs => a == b && startsWithChars as bs

/-- Whether `needle` occurs contiguously inside `hay` ("verbatim"
containment). -/
def containsSub (needle : List Char) : List Char → Bool
  | [] => startsWithChars needle []
  | b :: bs => startsWithChars needle (b :: bs) || containsSub needle bs

example : splitextExt "suite.txt" = ".txt" := by decide
example : splitextExt "suite.pxu" = ".pxu" := by decide
example : splitextExt "suite.pxu.in" = ".in" := by decide
example : splitextExt "suite" = "" := by decide
example : splitextExt ".bashrc" = "" := by decide
example : splitextExt "a/b.c" = ".c" := by decide
example : splitextExt "a.b/c" = "" := by decide
example : memberRole "docs" = true := by decide
example : memberRole "bogus" = false := by decide
example : roleMessage =
    "valid values are: binary, build, data, docs, i18n, invalid, legacy-whitelist, legal, manage.py, script, src, unit-source, unknown, vcs" := by decide
example : pyReprStr "a\\b" = "'a\\\\b'" := by decide
example : fileUnitRepr ⟨some "a\\b", some "docs"⟩ =
    "<FileUnit path:'a\\\\b', role:'docs'>" := by decide
example : containsSub "a\\b".data (fileUnitRepr ⟨some "a\\b", some "docs"⟩).data = false := by
  decide

/-- C4 counterexample: the claimed role identifier `manage-script` is not
an identifier of the `FileRole` enumeration (and is not a member of its
symbol set), while `manage.py` is — so the claimed fourteen-element
vocabulary is not the declared one. -/
theorem role_vocabulary_counterexample :
    (FileRole.get_all_symbols.map Symbol.name).contains "manage-script" = false ∧
    memberRole "manage-script" = false ∧
    (FileRole.get_all_symbols.map Symbol.name).contains "manage.py" = true := by
  decide

/-- C4 (amended): the `FileRole` enumeration declares exactly the fourteen
distinct identifiers unit-source, legacy-whitelist, script, binary, data,
i18n, manage.py, legal, docs, unknown, build, invalid, vcs, src — the
management-script role's identifier is `manage.py`. -/
theorem role_vocabulary_amended :
    FileRole.get_all_symbols.map Symbol.name =
      ["unit-source", "legacy-whitelist", "script", "binary", "data",
       "i18n", "manage.py", "legal", "docs", "unknown", "build", "invalid",
       "vcs", "src"] ∧
    (FileRole.get_all_symbols.map Symbol.name).Nodup := by
  exact ⟨rfl, by decide⟩

/-- C5: for every string `s`, the membership test used by the
role-membership validator (`s in FileRole.get_all_symbols()`) is true
exactly when `s` equals one of the declared `FileRole` identifier
strings. -/
theorem member_role_iff (s : String) :
    memberRole s = true ↔
      s ∈ ["unit-source", "legacy-whitelist", "script", "binary", "data",
           "i18n", "manage.py", "legal", "docs", "unknown", "build",
           "invalid", "vcs", "src"] := by
  simp only [memberRole, FileRole.get_all_symbols, FileRole.unit_source,
    FileRole.legacy_whitelist, FileRole.script, FileRole.binary,
    FileRole.data, FileRole.i18n, FileRole.manage_py, FileRole.legal,
    FileRole.docs, FileRole.unknown, FileRole.build, FileRole.invalid,
    FileRole.vcs, FileRole.src, List.any_cons, List.any_nil,
    Bool.or_eq_true, beq_iff_eq, List.mem_cons, List.not_mem_nil, or_false,
    Bool.false_eq_true]

/-- C5 witness: `docs` is a member of the role symbol set. -/
theorem member_role_iff_witness : memberRole "docs" = true :=
  (member_role_iff "docs").mpr (by decide)

/-- C6: the role-membership validator's message enumerates every valid
role identifier, joined in ascending code-point (alphabetical) order, so
the rendered message is this fixed string; the validator passes neither a
severity nor a problem classification, leaving the library defaults. -/
theorem role_validator_message_sorted :
    roleMembershipValidator.message =
      some ("valid values are: binary, build, data, docs, i18n, invalid, legacy-whitelist, legal, manage.py, script, src, unit-source, unknown, vcs") ∧
    roleMembershipValidator.severity = none ∧
    roleMembershipValidator.problem = none ∧
    List.Pairwise (fun a b => charListLe a.data b.data = true)
      ((sortSymbols FileRole.get_all_symbols).map Symbol.name) := by
  exact ⟨by decide, rfl, rfl, by decide⟩

/-- C7: every violation of the extension-convention validator carries the
problem kind `deprecated`, the severity `advice`, and the one fixed
message recommending the `.pxu` extension, which contains the
documentation FAQ URL. -/
theorem path_validator_classification :
    pathExtensionValidator.problem = some Problem.deprecated ∧
    pathExtensionValidator.severity = some Severity.advice ∧
    pathExtensionValidator.message =
      some ("please use .pxu as an extension for all files with plainbox units, see: http://plainbox.readthedocs.org/en/latest/author/faq.html#faq-1") ∧
    containsSub faqUrl.data pxuAdviceMessage.data = true := by
  exact ⟨rfl, rfl, by decide, by decide⟩

/-- C9: the declared field-name enumeration of `FileUnit.Meta` is exactly
path, role, base; validators are registered exactly for `path` and
`role`; the recognized field `base` carries no validator. -/
theorem fields_and_validator_registry :
    FileUnitMeta.fields = ["path", "role", "base"] ∧
    FileUnitMeta.field_validators.map Prod.fst = ["path", "role"] ∧
    FileUnitMeta.field_validators.find? (fun kv => kv.1 == "base") = none ∧
    (FileUnitMeta.field_validators.find? (fun kv => kv.1 == "path")).isSome = true ∧
    (FileUnitMeta.field_validators.find? (fun kv => kv.1 == "role")).isSome = true ∧
    "base" ∈ FileUnitMeta.fields := by
  refine ⟨rfl, rfl, rfl, rfl, rfl, by decide⟩

/-- C10: the extension predicate inspects only the final dot-suffix
computed by `os.path.splitext`; a compound extension such as
`suite.pxu.in` is flagged (its extension is `.in`), `suite.txt.pxu` is
accepted, and an extension-less path is flagged (its extension is empty),
whenever the unit-source guard is satisfied. -/
theorem splitext_final_suffix :
    (∀ p : String,
      pathExtensionValidator.correct_fn p = (splitextExt p == ".pxu")) ∧
    splitextExt "suite.pxu.in" = ".in" ∧
    pathViolation ⟨some "suite.pxu.in", some "unit-source"⟩ = true ∧
    splitextExt "suite.txt.pxu" = ".pxu" ∧
    pathViolation ⟨some "suite.txt.pxu", some "unit-source"⟩ = false ∧
    splitextExt "suite" = "" ∧
    pathViolation ⟨some "suite", some "unit-source"⟩ = true := by
  refine ⟨fun p => rfl, by decide, by decide, by decide, by decide,
    by decide, by decide⟩

theorem startsWithChars_self_append (n t : List Char) :
    startsWithChars n (n ++ t) = true := by
  induction n with
  | nil => rfl
  | cons a as ih => simp [startsWithChars, ih]

theorem containsSub_of_startsWith {n h : List Char}
    (hp : startsWithChars n h = true) : containsSub n h = true := by
  cases h with
  | nil => simpa [containsSub] using hp
  | cons b bs => simp [containsSub, hp]

theorem containsSub_cons {n t : List Char} (b : Char)
    (hc : containsSub n t = true) : containsSub n (b :: t) = true := by
  simp [containsSub, hc]

theorem containsSub_append_right {n post : List Char} (pre : List Char)
    (hc : containsSub n post = true) : containsSub n (pre ++ post) = true := by
  induction pre with
  | nil => simpa using hc
  | cons a as ih => simpa using containsSub_cons a ih

/-- A contiguous occurrence between arbitrary surroundings is found by
`containsSub`. -/
theorem containsSub_middle (n pre post : List Char) :
    containsSub n (pre ++ (n ++ post)) = true :=
  containsSub_append_right pre
    (containsSub_of_startsWith (startsWithChars_self_append n post))

theorem plainChar_spec {c : Char} (h : plainChar c = true) :
    32 ≤ c.toNat ∧ c.toNat < 127 ∧ c ≠ '\\' ∧ c ≠ '\'' ∧ c ≠ '"' := by
  simp only [plainChar, Bool.and_eq_true, decide_eq_true_eq,
    Bool.not_eq_true', beq_eq_false_iff_ne] at h
  tauto

theorem not_mem_quote {l : List Char} (h : l.all plainChar = true) :
    '\'' ∉ l := by
  intro hm
  have hc := List.all_eq_true.mp h _ hm
  exact absurd hc (by decide)

theorem contains_quote_eq_false {l : List Char}
    (h : l.all plainChar = true) : l.contains '\'' = false := by
  simpa using not_mem_quote h

theorem pyQuote_plain {l : List Char} (h : l.all plainChar = true) :
    pyQuote l = '\'' := by
  simp only [pyQuote]
  rw [contains_quote_eq_false h]
  simp

theorem escChar_plain {c : Char} (h : plainChar c = true) :
    escChar '\'' c = [c] := by
  obtain ⟨h1, h2, h3, h4, h5⟩ := plainChar_spec h
  have ht : c ≠ '\t' := by intro e; subst e; exact absurd h1 (by decide)
  have hn : c ≠ '\n' := by intro e; subst e; exact absurd h1 (by decide)
  have hr : c ≠ '\r' := by intro e; subst e; exact absurd h1 (by decide)
  have h32 : ¬ c.toNat < 32 := by omega
  have h127 : ¬ c.toNat = 127 := by omega
  simp [escChar, h3, h4, ht, hn, hr, h32, h127]

theorem flatten_escChar_plain {l : List Char} (h : l.all plainChar = true) :
    (l.map (escChar '\'')).flatten = l := by
  induction l with
  | nil => rfl
  | cons a as ih =>
    rw [List.all_cons, Bool.and_eq_true] at h
    simp [escChar_plain h.1, ih h.2]

/-- When every character is plain, CPython `repr` of a string is just the
string wrapped in single quotes. -/
theorem pyReprStr_plain {s : String} (h : s.data.all plainChar = true) :
    pyReprStr s = ⟨'\'' :: (s.data ++ ['\''])⟩ := by
  simp [pyReprStr, pyQuote_plain h, flatten_escChar_plain h]

/-- C8 counterexample: for the unit with path `a\b` (one backslash) and
role `docs`, the developer representation escapes the backslash, so it
does not contain the path value verbatim — while the string conversion
does still equal the path. -/
theorem file_unit_repr_counterexample :
    containsSub ("a\\b".data)
      ((fileUnitRepr ⟨some "a\\b", some "docs"⟩).data) = false ∧
    fileUnitStr ⟨some "a\\b", some "docs"⟩ = some "a\\b" := by
  exact ⟨by decide, rfl⟩

/-- C8 (amended): string conversion always equals the `path` field; the
developer representation embeds the CPython `repr` forms of path and
role, and therefore contains the path value and the role value verbatim
whenever both consist of characters that `repr` keeps unescaped
(printable ASCII other than backslash and quotes). -/
theorem file_unit_str_repr_amended (p r : String)
    (hp : p.data.all plainChar = true) (hr : r.data.all plainChar = true) :
    fileUnitStr ⟨some p, some r⟩ = some p ∧
    containsSub p.data ((fileUnitRepr ⟨some p, some r⟩).data) = true ∧
    containsSub r.data ((fileUnitRepr ⟨some p, some r⟩).data) = true := by
  refine ⟨rfl, ?_, ?_⟩
  · rw [show (fileUnitRepr ⟨some p, some r⟩).data =
        ("<FileUnit path:".data ++ ['\'']) ++ (p.data ++ (['\''] ++
          (", role:".data ++ ('\'' :: (r.data ++ ['\''])) ++ ">".data)))
      from by
        simp [fileUnitRepr, pyReprOpt, pyReprStr_plain hp,
          pyReprStr_plain hr]]
    exact containsSub_middle _ _ _
  · rw [show (fileUnitRepr ⟨some p, some r⟩).data =
        ("<FileUnit path:".data ++ ('\'' :: (p.data ++ ['\''])) ++
          ", role:".data ++ ['\'']) ++ (r.data ++ (['\''] ++ ">".data))
      from by
        simp [fileUnitRepr, pyReprOpt, pyReprStr_plain hp,
          pyReprStr_plain hr]]
    exact containsSub_middle _ _ _

/-- C8 amendment witness at a plain path and role. -/
theorem file_unit_str_repr_amended_witness :
    fileUnitStr ⟨some "suite.pxu", some "docs"⟩ = some "suite.pxu" ∧
    containsSub "suite.pxu".data
      ((fileUnitRepr ⟨some "suite.pxu", some "docs"⟩).data) = true ∧
    containsSub "docs".data
      ((fileUnitRepr ⟨some "suite.pxu", some "docs"⟩).data) = true :=
  file_unit_str_repr_amended "suite.pxu" "docs" (by decide) (by decide)

/-- C1: the extension-convention validator on `path` fires exactly when
the unit's role equals `unit-source` and the path's extension is not the
canonical `.pxu`; with any other (or absent) role the `onlyif` guard
leaves it inert for every path value, malformed or extension-less ones
included. -/
theorem path_extension_validator_fires_iff (u : FileUnitData) :
    pathViolation u = true ↔
      (u.role = some "unit-source" ∧
        ∃ p, u.path = some p ∧ splitextExt p ≠ ".pxu") := by
  obtain ⟨p, r⟩ := u
  cases r with
  | none =>
    simp [pathViolation, checkValidator, pathExtensionValidator, eqSymbol,
      FileRole.unit_source]
  | some s =>
    cases p with
    | none =>
      simp [pathViolation, checkValidator, pathExtensionValidator, eqSymbol,
        FileRole.unit_source]
    | some q =>
      simp [pathViolation, checkValidator, pathExtensionValidator, eqSymbol,
        FileRole.unit_source]

/-- C1 witness, at the spec's example inputs: `suite.txt` with role
unit-source is a violation; `suite.pxu` with role unit-source is not;
`run.sh` with role script is not. -/
theorem path_extension_validator_fires_iff_witness :
    pathViolation ⟨some "suite.txt", some "unit-source"⟩ = true ∧
    pathViolation ⟨some "suite.pxu", some "unit-source"⟩ = false ∧
    pathViolation ⟨some "run.sh", some "script"⟩ = false := by
  refine ⟨(path_extension_validator_fires_iff _).mpr
    ⟨rfl, "suite.txt", rfl, by decide⟩, by decide, by decide⟩

/-- C2: the role-membership validator fires exactly when a raw role value
is present (absence, modelled as `none`, is never a membership failure)
and is not a member of the `FileRole` symbol set. -/
theorem role_membership_validator_fires_iff (u : FileUnitData) :
    roleViolation u = true ↔
      ∃ s, u.role = some s ∧ memberRole s = false := by
  obtain ⟨p, r⟩ := u
  cases r with
  | none => simp [roleViolation, checkValidator, roleMembershipValidator]
  | some s => simp [roleViolation, checkValidator, roleMembershipValidator]

/-- C2 witness: role `bogus` is a violation, role `docs` is not, and an
unset role is not. -/
theorem role_membership_validator_fires_iff_witness :
    roleViolation ⟨none, some "bogus"⟩ = true ∧
    roleViolation ⟨none, some "docs"⟩ = false ∧
    roleViolation ⟨none, none⟩ = false := by
  refine ⟨(role_membership_validator_fires_iff _).mpr
    ⟨"bogus", rfl, by decide⟩, by decide, by decide⟩

/-- C3: `FileUnitValidator.explain` returns the validator-supplied custom
message when it is non-empty; otherwise the stock message looked up by
problem kind when the map has one (stock messages are non-empty strings);
and when the custom message is empty or absent and no stock message
exists for the kind, it returns no value — no default is synthesized. -/
theorem explain_prefers_custom_then_stock (v : FileUnitValidator)
    (hmap : ∀ kv ∈ v.explain_map, kv.2 ≠ "") (u : FileUnitData)
    (f : String) (k : Problem) (m : Option String) :
    (truthy m = true → v.explain u f k m = m) ∧
    (truthy m = false → ∀ s, v.stockMsg k = some s →
      v.explain u f k m = some s) ∧
    (truthy m = false → v.stockMsg k = none → v.explain u f k m = none) := by
  refine ⟨?_, ?_, ?_⟩
  · intro hm
    simp [FileUnitValidator.explain, hm]
  · intro hm s hs
    have hz : s ≠ "" := by
      obtain ⟨kv, hfind, hsnd⟩ := Option.map_eq_some'.mp hs
      have hkv := hmap kv (List.mem_of_find?_eq_some hfind)
      rw [hsnd] at hkv
      exact hkv
    simp only [FileUnitValidator.explain, hs, hm]
    simp [truthy, hz]
  · intro hm hs
    simp only [FileUnitValidator.explain, hs, hm]
    simp [truthy]

/-- C3 witness: with a stock map carrying one non-empty entry for
`deprecated` — a non-empty custom message wins; an absent custom message
falls back to the stock message; and for a kind with no stock entry the
result is no value. -/
theorem explain_prefers_custom_then_stock_witness :
    FileUnitValidator.explain ⟨[(Problem.deprecated, "stock advice")]⟩
      ⟨none, none⟩ "path" Problem.deprecated (some "custom") = some "custom" ∧
    FileUnitValidator.explain ⟨[(Problem.deprecated, "stock advice")]⟩
      ⟨none, none⟩ "path" Problem.deprecated none = some "stock advice" ∧
    FileUnitValidator.explain ⟨[(Problem.deprecated, "stock advice")]⟩
      ⟨none, none⟩ "path" Problem.missing none = none := by
  have hmap : ∀ kv ∈ ([(Problem.deprecated, "stock advice")] :
      List (Problem × String)), kv.2 ≠ "" := by decide
  refine ⟨?_, ?_, ?_⟩
  · exact (explain_prefers_custom_then_stock ⟨_⟩ hmap ⟨none, none⟩ "path"
      Problem.deprecated (some "custom")).1 (by decide)
  · exact (explain_prefers_custom_then_stock ⟨_⟩ hmap ⟨none, none⟩ "path"
      Problem.deprecated none).2.1 rfl "stock advice" rfl
  · exact (explain_prefers_custom_then_stock ⟨_⟩ hmap ⟨none, none⟩ "path"
      Problem.missing none).2.2 rfl rfl

end Plainbox
